import Mathlib

/-!
# Verification of the process-scheduling simulator (src/pa2.c)

A shallow embedding of the scheduling and resource-arbitration code of
`pa2.c` (FCFS acquire/release, the FIFO/SJF/SRTF/Round-Robin schedule
functions, and the PCP acquire/release pair), together with theorems
settling the specification claims about it.

Modelling conventions:
* C process pointers are modelled by process records; pointer identity is
  modelled by `pid` equality (the framework gives every process a distinct id).
* The intrusive linked lists (`readyqueue`, per-resource `waitqueue`,
  `runqueue`) are modelled as Lean `List`s, head = oldest entry;
  `list_add_tail` is append, `list_first_entry` is the head.
* `assert` failures (fatal aborts) are modelled by an `Option` result:
  `none` is an abort.
* C `unsigned long` values are modelled as `Nat`; the `ULONG_MAX` sentinel
  of the SJF/SRTF scan loops is the explicit constant `2 ^ 64 - 1`.
-/

/-- Process status, from the framework's `PROCESS_READY` / `PROCESS_RUNNING` /
`PROCESS_WAIT` / `PROCESS_EXIT` enumeration. -/
inductive PStatus where
  | ready
  | running
  | wait
  | exited
deriving DecidableEq, Repr

/-- The schedulable unit (`struct process`): identity, timing counters,
priority fields and status.  Queue linkage is carried by the queues
themselves (lists of process records). -/
structure Process where
  pid : Nat
  age : Nat
  lifespan : Nat
  expected_exec_time : Nat
  remaining_exec_time : Nat
  priority : Nat
  orig_priority : Nat
  status : PStatus
deriving DecidableEq, Repr

/-- One exclusive resource (`struct resource`): the owning process (by pid,
modelling the `owner` pointer) and the wait queue of blocked processes. -/
structure Resource where
  owner : Option Nat
  waitqueue : List Process
deriving DecidableEq, Repr

/-- `fcfs_acquire` (pa2.c:65-89).  Takes the requesting process (`current`)
and the resource; returns the C return value (`true` = granted) together
with the updated process and resource.  If the resource is unowned the
requester becomes the owner; otherwise the requester's status is set to
`PROCESS_WAIT` and it is appended at the tail of the wait queue. -/
def fcfs_acquire (cur : Process) (r : Resource) : Bool × Process × Resource :=
  match r.owner with
  | none => (true, cur, { r with owner := some cur.pid })
  | some _ =>
      (false, { cur with status := PStatus.wait },
        { r with waitqueue := r.waitqueue ++ [{ cur with status := PStatus.wait }] })

/-- `fcfs_release` (pa2.c:100-137).  Takes the calling process (`current`),
the resource and the ready queue; `none` models a failed `assert` (fatal
abort).  Asserts the caller owns the resource, clears ownership, and if the
wait queue is non-empty pops its head, asserts it is in `PROCESS_WAIT`,
marks it `PROCESS_READY` and appends it at the tail of the ready queue. -/
def fcfs_release (cur : Process) (r : Resource) (ready : List Process) :
    Option (Resource × List Process) :=
  if r.owner ≠ some cur.pid then
    none
  else
    match r.waitqueue with
    | [] => some ({ r with owner := none }, ready)
    | w :: rest =>
        if w.status ≠ PStatus.wait then
          none
        else
          some ({ r with owner := none, waitqueue := rest },
            ready ++ [{ w with status := PStatus.ready }])

/-- C2: the two branches of `fcfs_acquire`: an unowned resource is granted
(owner set to the requester, return `true`); an owned resource blocks the
requester (status becomes WAIT, appended at the wait-queue tail, return
`false`). -/
theorem fcfs_acquire_grant_or_block (cur : Process) (r : Resource) :
    (r.owner = none →
      fcfs_acquire cur r = (true, cur, { r with owner := some cur.pid })) ∧
    (∀ q, r.owner = some q →
      fcfs_acquire cur r =
        (false, { cur with status := PStatus.wait },
          { r with waitqueue := r.waitqueue ++ [{ cur with status := PStatus.wait }] })) := by
  obtain ⟨o, wq⟩ := r
  constructor
  · intro h
    subst h
    rfl
  · intro q h
    subst h
    rfl

/-- Concrete witness for `fcfs_acquire_grant_or_block`. -/
theorem fcfs_acquire_grant_or_block_witness :
    fcfs_acquire ⟨1, 0, 10, 3, 3, 5, 5, PStatus.running⟩ ⟨none, []⟩ =
      (true, ⟨1, 0, 10, 3, 3, 5, 5, PStatus.running⟩, ⟨some 1, []⟩) ∧
    fcfs_acquire ⟨1, 0, 10, 3, 3, 5, 5, PStatus.running⟩ ⟨some 2, []⟩ =
      (false, ⟨1, 0, 10, 3, 3, 5, 5, PStatus.wait⟩,
        ⟨some 2, [⟨1, 0, 10, 3, 3, 5, 5, PStatus.wait⟩]⟩) := by
  constructor
  · exact (fcfs_acquire_grant_or_block ⟨1, 0, 10, 3, 3, 5, 5, PStatus.running⟩
      ⟨none, []⟩).1 rfl
  · exact (fcfs_acquire_grant_or_block ⟨1, 0, 10, 3, 3, 5, 5, PStatus.running⟩
      ⟨some 2, []⟩).2 2 rfl

/-- C10: when `fcfs_acquire` blocks (the resource is already owned), the
resource's `owner` field is unchanged by the call. -/
theorem fcfs_acquire_block_preserves_owner (cur : Process) (r : Resource)
    (q : Nat) (h : r.owner = some q) :
    (fcfs_acquire cur r).1 = false ∧ (fcfs_acquire cur r).2.2.owner = r.owner := by
  obtain ⟨o, wq⟩ := r
  simp only at h
  subst h
  exact ⟨rfl, rfl⟩

/-- Concrete witness for `fcfs_acquire_block_preserves_owner`. -/
theorem fcfs_acquire_block_preserves_owner_witness :
    (fcfs_acquire ⟨3, 1, 6, 2, 2, 4, 4, PStatus.running⟩ ⟨some 7, []⟩).1 = false ∧
    (fcfs_acquire ⟨3, 1, 6, 2, 2, 4, 4, PStatus.running⟩ ⟨some 7, []⟩).2.2.owner = some 7 :=
  fcfs_acquire_block_preserves_owner ⟨3, 1, 6, 2, 2, 4, 4, PStatus.running⟩
    ⟨some 7, []⟩ 7 rfl

/-- C3: `fcfs_release` aborts (assertion failure) when the caller is not the
owner; otherwise it clears ownership, and when the wait queue is non-empty
it pops the head (oldest waiter), sets its status to READY and appends it at
the tail of the ready queue — without granting the resource to the woken
waiter (the resulting owner is `none`). -/
theorem fcfs_release_correct (cur : Process) (r : Resource) (ready : List Process) :
    (r.owner ≠ some cur.pid → fcfs_release cur r ready = none) ∧
    (r.owner = some cur.pid → r.waitqueue = [] →
      fcfs_release cur r ready = some ({ r with owner := none }, ready)) ∧
    (∀ w rest, r.owner = some cur.pid → r.waitqueue = w :: rest →
      w.status = PStatus.wait →
      fcfs_release cur r ready =
        some ({ r with owner := none, waitqueue := rest },
          ready ++ [{ w with status := PStatus.ready }])) := by
  obtain ⟨o, wq⟩ := r
  refine ⟨fun h => ?_, fun h hw => ?_, fun w rest h hw hs => ?_⟩
  · simp only [fcfs_release, if_pos h]
  · simp only at h hw
    subst h; subst hw
    simp [fcfs_release]
  · simp only at h hw
    subst h; subst hw
    simp [fcfs_release, hs]

/-- Concrete witness for `fcfs_release_correct`: all three branches at
explicit inputs (non-owner abort; empty wait queue; a woken head waiter). -/
theorem fcfs_release_correct_witness :
    fcfs_release ⟨1, 0, 10, 3, 3, 5, 5, PStatus.running⟩ ⟨some 9, []⟩ [] = none ∧
    fcfs_release ⟨1, 0, 10, 3, 3, 5, 5, PStatus.running⟩ ⟨some 1, []⟩ [] =
      some (⟨none, []⟩, []) ∧
    fcfs_release ⟨1, 0, 10, 3, 3, 5, 5, PStatus.running⟩
        ⟨some 1, [⟨2, 0, 8, 4, 4, 6, 6, PStatus.wait⟩]⟩ [] =
      some (⟨none, []⟩, [⟨2, 0, 8, 4, 4, 6, 6, PStatus.ready⟩]) := by
  refine ⟨?_, ?_, ?_⟩
  · exact (fcfs_release_correct ⟨1, 0, 10, 3, 3, 5, 5, PStatus.running⟩
      ⟨some 9, []⟩ []).1 (by decide)
  · exact (fcfs_release_correct ⟨1, 0, 10, 3, 3, 5, 5, PStatus.running⟩
      ⟨some 1, []⟩ []).2.1 rfl rfl
  · exact (fcfs_release_correct ⟨1, 0, 10, 3, 3, 5, 5, PStatus.running⟩
      ⟨some 1, [⟨2, 0, 8, 4, 4, 6, 6, PStatus.wait⟩]⟩ []).2.2
      ⟨2, 0, 8, 4, 4, 6, 6, PStatus.wait⟩ [] rfl rfl rfl

/-- The `pick_next` tail of `fifo_schedule` (pa2.c:180-199): pop the head of
the ready queue if it is non-empty, otherwise return no process. -/
def pick_next (rq : List Process) : Option Process × List Process :=
  match rq with
  | [] => (none, rq)
  | h :: t => (some h, t)

/-- `fifo_schedule` (pa2.c:155-200).  Takes the `current` process (if any)
and the ready queue; returns the process to run and the ready queue after
selection.  Keeps running `current` while it exists, is not WAITING and has
`age < lifespan`; otherwise pops the head of the ready queue. -/
def fifo_schedule (cur : Option Process) (rq : List Process) :
    Option Process × List Process :=
  match cur with
  | none => pick_next rq
  | some c =>
      if c.status = PStatus.wait then pick_next rq
      else if c.age < c.lifespan then (some c, rq)
      else pick_next rq

/-- C5: `fifo_schedule` is non-preemptive: a current process that is not
WAITING and has `age < lifespan` is returned unchanged; in every other case
(no current process, WAITING current, or exhausted lifespan) the head of the
ready queue is popped and returned, and an empty ready queue yields idle. -/
theorem fifo_schedule_nonpreemptive (c : Process) (rq : List Process)
    (h : Process) (t : List Process) :
    (c.status ≠ PStatus.wait → c.age < c.lifespan →
      fifo_schedule (some c) rq = (some c, rq)) ∧
    (¬(c.status ≠ PStatus.wait ∧ c.age < c.lifespan) →
      fifo_schedule (some c) rq = pick_next rq) ∧
    fifo_schedule none rq = pick_next rq ∧
    pick_next (h :: t) = (some h, t) ∧
    pick_next ([] : List Process) = (none, []) := by
  refine ⟨fun hs hl => ?_, fun hn => ?_, rfl, rfl, rfl⟩
  · simp [fifo_schedule, hs, hl]
  · rcases Decidable.em (c.status = PStatus.wait) with hs | hs
    · simp [fifo_schedule, hs]
    · have hl : ¬ c.age < c.lifespan := by
        intro hl
        exact hn ⟨hs, hl⟩
      simp [fifo_schedule, hs, hl]

/-- Concrete witness for `fifo_schedule_nonpreemptive`: a runnable current
process is kept; an exhausted one is replaced by the queue head. -/
theorem fifo_schedule_nonpreemptive_witness :
    fifo_schedule (some ⟨1, 2, 10, 3, 3, 5, 5, PStatus.running⟩)
        [⟨2, 0, 8, 4, 4, 6, 6, PStatus.ready⟩] =
      (some ⟨1, 2, 10, 3, 3, 5, 5, PStatus.running⟩,
        [⟨2, 0, 8, 4, 4, 6, 6, PStatus.ready⟩]) ∧
    fifo_schedule (some ⟨1, 10, 10, 3, 3, 5, 5, PStatus.running⟩)
        [⟨2, 0, 8, 4, 4, 6, 6, PStatus.ready⟩] =
      (some ⟨2, 0, 8, 4, 4, 6, 6, PStatus.ready⟩, []) := by
  constructor
  · exact (fifo_schedule_nonpreemptive ⟨1, 2, 10, 3, 3, 5, 5, PStatus.running⟩
      [⟨2, 0, 8, 4, 4, 6, 6, PStatus.ready⟩] ⟨2, 0, 8, 4, 4, 6, 6, PStatus.ready⟩ []).1
      (by decide) (by decide)
  · exact (fifo_schedule_nonpreemptive ⟨1, 10, 10, 3, 3, 5, 5, PStatus.running⟩
      [⟨2, 0, 8, 4, 4, 6, 6, PStatus.ready⟩] ⟨2, 0, 8, 4, 4, 6, 6, PStatus.ready⟩ []).2.1
      (by decide)

/-- The scan loop shared verbatim (up to the compared field) by
`sjf_schedule` (pa2.c:216-249) and `srtf_schedule` (pa2.c:274-301):
iterate over the run queue keeping the first process whose key is strictly
below the running minimum `m`, which starts at `ULONG_MAX`. -/
def pickLoop (key : Process → Nat) :
    List Process → Option Process → Nat → Option Process
  | [], shortest, _ => shortest
  | c :: rest, shortest, m =>
      if key c < m then pickLoop key rest (some c) (key c)
      else pickLoop key rest shortest m

/-- The `ULONG_MAX` sentinel used to initialise the minimum in the SJF and
SRTF scan loops (C `unsigned long`, 64-bit). -/
def ULONG_MAX : Nat := 2 ^ 64 - 1

/-- `sjf_schedule` (pa2.c:216-249): scan the run queue for the process with
the smallest `expected_exec_time` under a strict `<` against a running
minimum initialised to `ULONG_MAX`.  The function performs no `list_del`,
so the run queue is returned unchanged. -/
def sjf_schedule (rq : List Process) : Option Process × List Process :=
  (pickLoop (fun p => p.expected_exec_time) rq none ULONG_MAX, rq)

/-- `srtf_schedule` (pa2.c:274-301): identical scan comparing
`remaining_exec_time`; the run queue is likewise returned unchanged. -/
def srtf_schedule (rq : List Process) : Option Process × List Process :=
  (pickLoop (fun p => p.remaining_exec_time) rq none ULONG_MAX, rq)

/-- Characterisation of the scan loop: either no element beats the initial
minimum `m` and the accumulator is returned, or the result is the first
element attaining the minimum key of the list — every earlier element has a
strictly larger key and every later element a key at least as large. -/
theorem pickLoop_spec (key : Process → Nat) :
    ∀ (l : List Process) (m : Nat) (sh : Option Process),
      (pickLoop key l sh m = sh ∧ ∀ q ∈ l, m ≤ key q) ∨
      (∃ p l1 l2, pickLoop key l sh m = some p ∧ l = l1 ++ p :: l2 ∧
        key p < m ∧ (∀ q ∈ l1, key p < key q) ∧ (∀ q ∈ l2, key p ≤ key q)) := by
  intro l
  induction l with
  | nil =>
      intro m sh
      exact Or.inl ⟨rfl, by simp⟩
  | cons c rest ih =>
      intro m sh
      by_cases hc : key c < m
      · rcases ih (key c) (some c) with ⟨heq, hall⟩ |
          ⟨p, l1, l2, heq, hsplit, hlt, hbefore, hafter⟩
        · refine Or.inr ⟨c, [], rest, ?_, rfl, hc, by simp, hall⟩
          simpa [pickLoop, hc] using heq
        · refine Or.inr ⟨p, c :: l1, l2, ?_, by simp [hsplit],
            Nat.lt_trans hlt hc, ?_, hafter⟩
          · simpa [pickLoop, hc] using heq
          · intro q hq
            rcases List.mem_cons.mp hq with h | h
            · subst h; exact hlt
            · exact hbefore q h
      · rcases ih m sh with ⟨heq, hall⟩ |
          ⟨p, l1, l2, heq, hsplit, hlt, hbefore, hafter⟩
        · refine Or.inl ⟨?_, ?_⟩
          · simpa [pickLoop, hc] using heq
          · intro q hq
            rcases List.mem_cons.mp hq with h | h
            · subst h; exact Nat.le_of_not_lt hc
            · exact hall q h
        · refine Or.inr ⟨p, c :: l1, l2, ?_, by simp [hsplit], hlt, ?_, hafter⟩
          · simpa [pickLoop, hc] using heq
          · intro q hq
            rcases List.mem_cons.mp hq with h | h
            · subst h; exact lt_of_lt_of_le hlt (Nat.le_of_not_lt hc)
            · exact hbefore q h

/-- A ready process whose `expected_exec_time` equals the `ULONG_MAX`
sentinel: never selectable by the SJF scan's strict `<`. -/
def pMax6 : Process := ⟨11, 0, 5, ULONG_MAX, 3, 1, 1, PStatus.ready⟩

/-- C6 counterexample: on the non-empty run queue `[pMax6]`, whose single
process has `expected_exec_time = ULONG_MAX`, `sjf_schedule` returns no
process — contradicting the claim that every non-empty ready set yields a
minimum-`expected_exec_time` process. -/
theorem sjf_ulong_max_counterexample :
    ([pMax6] : List Process) ≠ [] ∧ (sjf_schedule [pMax6]).1 = none := by
  constructor
  · simp
  · decide

/-- C6 (amended): an empty run queue yields idle, and whenever some ready
process has `expected_exec_time < ULONG_MAX`, `sjf_schedule` returns a
process of the queue with minimal `expected_exec_time`, the first such
process in queue order (all earlier ones are strictly larger). -/
theorem sjf_schedule_min_first (l : List Process) :
    (sjf_schedule []).1 = none ∧
    ((∃ p, p ∈ l ∧ p.expected_exec_time < ULONG_MAX) →
      ∃ p l1 l2, (sjf_schedule l).1 = some p ∧ l = l1 ++ p :: l2 ∧
        (∀ q ∈ l, p.expected_exec_time ≤ q.expected_exec_time) ∧
        (∀ q ∈ l1, p.expected_exec_time < q.expected_exec_time)) := by
  refine ⟨rfl, ?_⟩
  rintro ⟨p0, hp0, hlt0⟩
  rcases pickLoop_spec (fun p => p.expected_exec_time) l ULONG_MAX none with
    ⟨_, hall⟩ | ⟨p, l1, l2, heq, hsplit, _, hbefore, hafter⟩
  · exact absurd (hall p0 hp0) (Nat.not_le_of_lt hlt0)
  · refine ⟨p, l1, l2, heq, hsplit, ?_, hbefore⟩
    intro q hq
    rw [hsplit] at hq
    rcases List.mem_append.mp hq with h | h
    · exact Nat.le_of_lt (hbefore q h)
    · rcases List.mem_cons.mp h with h | h
      · subst h; exact le_refl _
      · exact hafter q h

/-- Ready processes for the C6 witness. -/
def pA6 : Process := ⟨21, 0, 5, 3, 3, 2, 2, PStatus.ready⟩

def pB6 : Process := ⟨22, 0, 5, 2, 2, 3, 3, PStatus.ready⟩

/-- Concrete witness for `sjf_schedule_min_first` on the run queue
`[pA6, pB6]` (expected times 3 and 2). -/
theorem sjf_schedule_min_first_witness :
    ∃ p l1 l2, (sjf_schedule [pA6, pB6]).1 = some p ∧
      [pA6, pB6] = l1 ++ p :: l2 ∧
      (∀ q ∈ [pA6, pB6], p.expected_exec_time ≤ q.expected_exec_time) ∧
      (∀ q ∈ l1, p.expected_exec_time < q.expected_exec_time) :=
  (sjf_schedule_min_first [pA6, pB6]).2 ⟨pB6, by decide, by decide⟩

/-- A ready process whose `remaining_exec_time` equals the `ULONG_MAX`
sentinel: never selectable by the SRTF scan's strict `<`. -/
def pMax7 : Process := ⟨12, 0, 5, 3, ULONG_MAX, 1, 1, PStatus.ready⟩

/-- C7 counterexample: on the non-empty run queue `[pMax7]`, whose single
process has `remaining_exec_time = ULONG_MAX`, `srtf_schedule` returns no
process — contradicting the claim that it returns a ready process of
minimal remaining time whenever ready processes exist. -/
theorem srtf_ulong_max_counterexample :
    ([pMax7] : List Process) ≠ [] ∧ (srtf_schedule [pMax7]).1 = none := by
  constructor
  · simp
  · decide

/-- C7 (amended): an empty run queue yields idle, and whenever some ready
process has `remaining_exec_time < ULONG_MAX`, `srtf_schedule` returns a
process of the queue with minimal `remaining_exec_time` — so it never
selects a process with a strictly larger remaining time than another ready
process — and ties go to the first such process in queue order. -/
theorem srtf_schedule_min_first (l : List Process) :
    (srtf_schedule []).1 = none ∧
    ((∃ p, p ∈ l ∧ p.remaining_exec_time < ULONG_MAX) →
      ∃ p l1 l2, (srtf_schedule l).1 = some p ∧ l = l1 ++ p :: l2 ∧
        (∀ q ∈ l, p.remaining_exec_time ≤ q.remaining_exec_time) ∧
        (∀ q ∈ l1, p.remaining_exec_time < q.remaining_exec_time)) := by
  refine ⟨rfl, ?_⟩
  rintro ⟨p0, hp0, hlt0⟩
  rcases pickLoop_spec (fun p => p.remaining_exec_time) l ULONG_MAX none with
    ⟨_, hall⟩ | ⟨p, l1, l2, heq, hsplit, _, hbefore, hafter⟩
  · exact absurd (hall p0 hp0) (Nat.not_le_of_lt hlt0)
  · refine ⟨p, l1, l2, heq, hsplit, ?_, hbefore⟩
    intro q hq
    rw [hsplit] at hq
    rcases List.mem_append.mp hq with h | h
    · exact Nat.le_of_lt (hbefore q h)
    · rcases List.mem_cons.mp h with h | h
      · subst h; exact le_refl _
      · exact hafter q h

/-- Ready processes for the C7 witness. -/
def pA7 : Process := ⟨23, 0, 5, 4, 4, 2, 2, PStatus.ready⟩

def pB7 : Process := ⟨24, 0, 5, 4, 1, 3, 3, PStatus.ready⟩

/-- Concrete witness for `srtf_schedule_min_first` on the run queue
`[pA7, pB7]` (remaining times 4 and 1). -/
theorem srtf_schedule_min_first_witness :
    ∃ p l1 l2, (srtf_schedule [pA7, pB7]).1 = some p ∧
      [pA7, pB7] = l1 ++ p :: l2 ∧
      (∀ q ∈ [pA7, pB7], p.remaining_exec_time ≤ q.remaining_exec_time) ∧
      (∀ q ∈ l1, p.remaining_exec_time < q.remaining_exec_time) :=
  (srtf_schedule_min_first [pA7, pB7]).2 ⟨pB7, by decide, by decide⟩

/-- A single ready process for the C4 evaluation. -/
def pC4 : Process := ⟨31, 0, 5, 3, 3, 4, 4, PStatus.ready⟩

/-- C4: `sjf_schedule` selects a process but never detaches it — on the run
queue `[pC4]` it returns `pC4` while `pC4` is still in the queue after the
call (the function performs no `list_del`, unlike `fifo_schedule`, whose
comment warns the framework asserts if the selected process stays queued). -/
theorem sjf_schedule_leaves_selected_in_queue :
    (sjf_schedule [pC4]).1 = some pC4 ∧ (sjf_schedule [pC4]).2 = [pC4] ∧
    pC4 ∈ (sjf_schedule [pC4]).2 := by
  refine ⟨by decide, rfl, ?_⟩
  simp [sjf_schedule]

/-- The lock of `pcp_acquire`/`pcp_release` (pa2.c:406-433): the static
priority ceiling, plus a flag modelling whether the underlying
`acquire_lock` call (absent from this source file) succeeds. -/
structure PcpLock where
  ceiling : Nat
  free : Bool
deriving DecidableEq, Repr

/-- The priority fields of a process as used by the PCP pair. -/
structure PcpProcess where
  priority : Nat
  orig_priority : Nat
deriving DecidableEq, Repr

/-- `pcp_acquire` (pa2.c:406-421): fail with `-1` when the underlying lock
acquisition fails; otherwise set the process's priority to the ceiling
exactly when `p->priority < p->lock->ceiling`, and return `0`. -/
def pcp_acquire (p : PcpProcess) (lk : PcpLock) : Int × PcpProcess :=
  if lk.free = false then (-1, p)
  else if p.priority < lk.ceiling then (0, { p with priority := lk.ceiling })
  else (0, p)

/-- `pcp_release` (pa2.c:423-433): release the lock and unconditionally
restore the process's priority to its original priority. -/
def pcp_release (p : PcpProcess) : Int × PcpProcess :=
  (0, { p with priority := p.orig_priority })

/-- C1: the ceiling comparison in `pcp_acquire` is inverted.  In the
simulator's convention a numerically smaller priority is better, so a
priority-5 process acquiring a free lock of ceiling 2 should run at
priority 2 while holding it; instead `pcp_acquire` leaves it at 5 (the
guard `priority < ceiling` is false), and demotes a priority-1 process to
2.  `pcp_release` does restore the original priority. -/
theorem pcp_acquire_inverted_ceiling_check :
    (pcp_acquire ⟨5, 5⟩ ⟨2, true⟩).2.priority = 5 ∧
    (pcp_acquire ⟨1, 1⟩ ⟨2, true⟩).2.priority = 2 ∧
    (pcp_acquire ⟨5, 5⟩ ⟨2, false⟩).1 = -1 ∧
    (pcp_release ⟨2, 5⟩).2.priority = 5 := by
  decide

/-- `rr_schedule` (pa2.c:312-334): return no process when the run queue is
empty; otherwise move the head to the tail and return the new head.  The
queue after the call is the rotated queue (the head is re-read with
`list_first_entry` after the rotation; nothing is detached). -/
def rr_schedule (rq : List Process) : Option Process × List Process :=
  match rq with
  | [] => (none, rq)
  | h :: t => ((t ++ [h]).head?, t ++ [h])

/-- The run queue after `n` successive `rr_schedule` calls starting
from `l0`. -/
def rrStates (l0 : List Process) : Nat → List Process
  | 0 => l0
  | n + 1 => (rr_schedule (rrStates l0 n)).2

/-- The process selected by the `(n+1)`-st `rr_schedule` call starting
from `l0`. -/
def rrSel (l0 : List Process) (n : Nat) : Option Process :=
  (rr_schedule (rrStates l0 n)).1

/-- A three-process run queue rotates back to itself every three
`rr_schedule` calls. -/
theorem rrStates_three (p1 p2 p3 : Process) (k : Nat) :
    rrStates [p1, p2, p3] (3 * k) = [p1, p2, p3] := by
  induction k with
  | zero => rfl
  | succ k ih =>
      have h3 : 3 * (k + 1) = 3 * k + 1 + 1 + 1 := by ring
      rw [h3]
      simp [rrStates, rr_schedule, ih]

/-- Concrete ready processes for the C8 counterexample. -/
def pR1 : Process := ⟨41, 0, 9, 1, 1, 1, 1, PStatus.ready⟩

def pR2 : Process := ⟨42, 0, 9, 2, 2, 2, 2, PStatus.ready⟩

def pR3 : Process := ⟨43, 0, 9, 3, 3, 3, 3, PStatus.ready⟩

/-- C8 counterexample: from the ready queue `[pR1, pR2, pR3]` the first
`rr_schedule` selection is `pR2`, not `pR1` — the rotation happens before
the head is read, so the claimed selection sequence P1,P2,P3,… is wrong at
its first element. -/
theorem rr_first_selection_counterexample :
    rrSel [pR1, pR2, pR3] 0 = some pR2 ∧ pR2 ≠ pR1 := by
  constructor
  · rfl
  · decide

/-- C8 (amended): `rr_schedule` returns idle on the empty queue, otherwise
rotates the queue (head to tail) and returns the new head, unconditionally
on every call; from a ready queue `[p1, p2, p3]` the selection sequence is
therefore p2, p3, p1, p2, p3, p1, … for as long as all three remain
ready. -/
theorem rr_schedule_rotation (p1 p2 p3 h : Process) (t : List Process) (k : Nat) :
    (rr_schedule []).1 = none ∧
    rr_schedule (h :: t) = ((t ++ [h]).head?, t ++ [h]) ∧
    rrSel [p1, p2, p3] (3 * k) = some p2 ∧
    rrSel [p1, p2, p3] (3 * k + 1) = some p3 ∧
    rrSel [p1, p2, p3] (3 * k + 2) = some p1 := by
  have hs := rrStates_three p1 p2 p3 k
  refine ⟨rfl, rfl, ?_, ?_, ?_⟩
  · simp [rrSel, hs, rr_schedule]
  · simp [rrSel, rrStates, hs, rr_schedule]
  · simp [rrSel, rrStates, hs, rr_schedule]

/-- Modelled from the spec: `pip_scheduler` (pa2.c:438-443) is an empty
descriptor — no PIP acquire/release exists anywhere in the source — so the
priority-inheritance state is modelled from §4.8 of the specification.
A PIP process: identity, original and current priority, and the resource it
is blocked on (if any). -/
structure PipProc where
  pid : Nat
  orig_priority : Nat
  priority : Nat
  blocked_on : Option Nat
deriving DecidableEq, Repr

/-- Modelled from the spec: a PIP resource — identity, owner (by pid) and
the ordered queue of waiting pids. -/
structure PipRes where
  rid : Nat
  owner : Option Nat
  waiters : List Nat
deriving DecidableEq, Repr

/-- Modelled from the spec: the PIP simulation state — the process table
and the resource table. -/
structure PipState where
  procs : List PipProc
  ress : List PipRes
deriving DecidableEq, Repr

/-- Look up a process by pid. -/
def findProc (s : PipState) (pid : Nat) : Option PipProc :=
  s.procs.find? (fun p => p.pid == pid)

/-- Look up a resource by rid. -/
def findRes (s : PipState) (rid : Nat) : Option PipRes :=
  s.ress.find? (fun r => r.rid == rid)

/-- Update the process with the given pid. -/
def updProc (s : PipState) (pid : Nat) (f : PipProc → PipProc) : PipState :=
  { s with procs := s.procs.map (fun p => if p.pid == pid then f p else p) }

/-- Update the resource with the given rid. -/
def updRes (s : PipState) (rid : Nat) (f : PipRes → PipRes) : PipState :=
  { s with ress := s.ress.map (fun r => if r.rid == rid then f r else r) }

/-- Modelled from the spec (§4.8): propagate an inherited priority `prio`
to the owner of resource `rid`, and transitively onwards when that owner is
itself blocked on another resource (chained inheritance).  The fuel bounds
the chain length by the number of processes. -/
def pipPropagate : Nat → Nat → Nat → PipState → PipState
  | 0, _, _, s => s
  | fuel + 1, rid, prio, s =>
      match findRes s rid with
      | none => s
      | some r =>
          match r.owner with
          | none => s
          | some hPid =>
              match findProc s hPid with
              | none => s
              | some hp =>
                  if prio < hp.priority then
                    let s1 := updProc s hPid (fun p => { p with priority := prio })
                    match hp.blocked_on with
                    | some rid2 => pipPropagate fuel rid2 prio s1
                    | none => s1
                  else s

/-- Modelled from the spec (§4.8): a requester blocks on resource `rid` —
it is appended to the resource's wait queue, marked blocked on `rid`, and
its priority is inherited by the holder (and transitively by the holder's
own holders). -/
def pip_block (s : PipState) (reqPid rid : Nat) : PipState :=
  match findProc s reqPid with
  | none => s
  | some req =>
      let s1 := updRes s rid (fun r => { r with waiters := r.waiters ++ [reqPid] })
      let s2 := updProc s1 reqPid (fun p => { p with blocked_on := some rid })
      pipPropagate s2.procs.length rid req.priority s2

/-- Modelled from the spec (§4.8): the priority still owed to process
`hPid` — its original priority, lowered in number (raised in urgency) to
the smallest priority among the waiters of all resources it still owns. -/
def owedPriority (s : PipState) (hPid : Nat) (base : Nat) : Nat :=
  s.ress.foldl
    (fun acc r =>
      if r.owner == some hPid then
        r.waiters.foldl
          (fun acc2 w =>
            match findProc s w with
            | some wp => min acc2 wp.priority
            | none => acc2)
          acc
      else acc)
    base

/-- Modelled from the spec (§4.8 and the shared state machine): process
`hPid` releases resource `rid` — ownership is cleared, the head waiter (if
any) is woken (the resource is not re-granted), and the releaser's priority
reverts to its original value or to the highest (numerically smallest)
priority still owed to a waiter on a resource it still holds. -/
def pip_release (s : PipState) (hPid rid : Nat) : PipState :=
  let s1 := updRes s rid (fun r => { r with owner := none })
  let s2 :=
    match findRes s1 rid with
    | some r =>
        match r.waiters with
        | w :: rest =>
            let s3 := updRes s1 rid (fun rr => { rr with waiters := rest })
            updProc s3 w (fun p => { p with blocked_on := none })
        | [] => s1
    | none => s1
  match findProc s2 hPid with
  | some hp =>
      updProc s2 hPid (fun p => { p with priority := owedPriority s2 hPid hp.orig_priority })
  | none => s2

/-- The current priority of the process with the given pid (0 if absent). -/
def prioOf (s : PipState) (pid : Nat) : Nat :=
  match findProc s pid with
  | some p => p.priority
  | none => 0

/-- PIP scenario state: holder H (pid 0, priority 8) owns resources 0 and
1; waiters A (pid 1, priority 1) and B (pid 2, priority 4) are not yet
blocked. -/
def pipS0 : PipState :=
  { procs := [⟨0, 8, 8, none⟩, ⟨1, 1, 1, none⟩, ⟨2, 4, 4, none⟩],
    ress := [⟨0, some 0, []⟩, ⟨1, some 0, []⟩] }

/-- A (priority 1) blocks on resource 0. -/
def pipS1 : PipState := pip_block pipS0 1 0

/-- B (priority 4) blocks on resource 1. -/
def pipS2 : PipState := pip_block pipS1 2 1

/-- H releases resource 0 (waking A); B still waits on resource 1. -/
def pipS3 : PipState := pip_release pipS2 0 0

/-- PIP chained scenario state: H1 (pid 0, priority 8) owns resource 0 and
is itself blocked on resource 1, owned by H2 (pid 3, priority 9). -/
def pipT0 : PipState :=
  { procs := [⟨0, 8, 8, some 1⟩, ⟨3, 9, 9, none⟩, ⟨1, 1, 1, none⟩],
    ress := [⟨0, some 0, []⟩, ⟨1, some 3, [0]⟩] }

/-- A (priority 1) blocks on resource 0, held by the chained holder H1. -/
def pipT1 : PipState := pip_block pipT0 1 0

/-- C9: in the spec-modelled PIP, blocking a priority-1 waiter on a
resource held by an original-priority-8 holder drops the holder's priority
to 1; a second waiter of priority 4 on another held resource leaves it at
1; after the first release the holder's priority becomes 4 (still owed to
the pending priority-4 waiter), not 8; and inheritance propagates
transitively through a chain of blocked holders. -/
theorem pip_inheritance_scenario :
    prioOf pipS1 0 = 1 ∧
    prioOf pipS2 0 = 1 ∧
    prioOf pipS3 0 = 4 ∧
    prioOf pipT1 0 = 1 ∧
    prioOf pipT1 3 = 1 := by
  decide
